import Mathlib

/-!
Shallow embedding of src/main.py, a converter from ICS calendar files to a
CSV of working hours, together with theorems checking the specification
claims against the code.

Python dates and datetimes are modelled at second resolution (ICS DATE-TIME
values carry no sub-second part).  A timezone-aware datetime carries its UTC
offset in seconds; a naive datetime carries none.  Python raises a TypeError
when subtracting a naive datetime from an aware one (or vice versa); this is
modelled by the subtraction returning none and by event_to_row returning
an Except error.
-/

namespace ICS

/-- A calendar date, as in Python datetime.date (year, month, day). -/
structure Date where
  year : Nat
  month : Nat
  day : Nat
deriving DecidableEq

/-- A time of day at second resolution, as in Python datetime.time. -/
structure Time where
  hour : Nat
  minute : Nat
  second : Nat
deriving DecidableEq

/-- A Python datetime: date, time of day, and an optional UTC offset in
seconds (some = timezone aware, none = naive). -/
structure PyDateTime where
  date : Date
  time : Time
  tz : Option Int
deriving DecidableEq

/-- The value carried by a DTSTART or DTEND property: icalendar returns
either a datetime or a plain date. -/
inductive DtValue where
  | dt (v : PyDateTime)
  | d (v : Date)
deriving DecidableEq

/-- datetime.min.time(), i.e. midnight 00:00:00. -/
def midnightTime : Time := ⟨0, 0, 0⟩

/-- Lines 36-44 of main.py: a datetime is used as is; a plain date is
combined with midnight (datetime.combine gives a naive datetime). -/
def normalizeDt : DtValue → PyDateTime
  | .dt v => v
  | .d v => ⟨v, midnightTime, none⟩

/-- Days since the Unix epoch of a civil date (standard days-from-civil
computation, the arithmetic underlying Python date ordinals). -/
def daysFromCivil (dd : Date) : Int :=
  let y : Int := if dd.month ≤ 2 then (dd.year : Int) - 1 else (dd.year : Int)
  let era : Int := (if 0 ≤ y then y else y - 399) / 400
  let yoe : Int := y - era * 400
  let mp : Nat := (dd.month + 9) % 12
  let doy : Int := ((153 * (mp : Int) + 2) / 5) + (dd.day : Int) - 1
  let doe : Int := yoe * 365 + yoe / 4 - yoe / 100 + doy
  era * 146097 + doe - 719468

/-- Seconds into the day of a time of day. -/
def timeSeconds (t : Time) : Nat := t.hour * 3600 + t.minute * 60 + t.second

/-- The timeline instant of a datetime, ignoring its UTC offset. -/
def naiveSeconds (v : PyDateTime) : Int :=
  daysFromCivil v.date * 86400 + (timeSeconds v.time : Int)

/-- Python datetime subtraction, in whole seconds.  Both naive: plain
difference.  Both aware: difference of the UTC instants.  Mixed: Python
raises TypeError, modelled as none. -/
def dtSub (a b : PyDateTime) : Option Int :=
  match a.tz, b.tz with
  | none, none => some (naiveSeconds a - naiveSeconds b)
  | some ta, some tb => some ((naiveSeconds a - ta) - (naiveSeconds b - tb))
  | _, _ => none

/-- A VEVENT as far as main.py reads it: optional DTSTART, DTEND, SUMMARY. -/
structure Event where
  dtstart : Option DtValue
  dtend : Option DtValue
  summary : Option String
deriving DecidableEq

/-- Zero-padded two-digit rendering of a number below 100. -/
def pad2 (n : Nat) : String := if n < 10 then "0" ++ toString n else toString n

/-- Zero-padded four-digit rendering of a year. -/
def pad4 (n : Nat) : String :=
  if n < 10 then "000" ++ toString n
  else if n < 100 then "00" ++ toString n
  else if n < 1000 then "0" ++ toString n
  else toString n

/-- Python date.isoformat(): YYYY-MM-DD. -/
def isoDate (dd : Date) : String :=
  pad4 dd.year ++ "-" ++ pad2 dd.month ++ "-" ++ pad2 dd.day

/-- Python time.strftime of hours and minutes: zero-padded HH:MM. -/
def fmtHM (t : Time) : String := pad2 t.hour ++ ":" ++ pad2 t.minute

/-- A CSV row: date string, start string, end string, summary, duration in
minutes. -/
abbrev OutputRow := String × String × String × String × Int

/-- Lines 26-58 of main.py (event_to_row).  Returns ok none when the event
is skipped, ok (some row) when a row is produced, and error when Python
would raise (mixed aware and naive subtraction). -/
def event_to_row (e : Event) : Except Unit (Option OutputRow) :=
  match e.dtstart, e.dtend with
  | some ds, some de =>
    let start_dt := normalizeDt ds
    let end_dt := normalizeDt de
    if start_dt.time = midnightTime ∧ end_dt.time = midnightTime then
      .ok none
    else
      match dtSub end_dt start_dt with
      | none => .error ()
      | some secs =>
        .ok (some (isoDate start_dt.date, fmtHM start_dt.time,
          fmtHM end_dt.time, e.summary.getD "", Int.fdiv secs 60))
  | _, _ => .ok none

/-- Lines 61-68 of main.py: the accumulation loop of parse_events.  An
exception from event_to_row propagates and aborts the loop. -/
def parse_events_aux : List Event → List OutputRow → Except Unit (List OutputRow)
  | [], acc => .ok acc
  | e :: es, acc =>
    match event_to_row e with
    | .error u => .error u
    | .ok none => parse_events_aux es acc
    | .ok (some r) => parse_events_aux es (acc ++ [r])

/-- Lines 61-68 of main.py (parse_events): rows extracted from all VEVENTs
of the calendar, in document order. -/
def parse_events (cal : List Event) : Except Unit (List OutputRow) :=
  parse_events_aux cal []

/-! ### The CSV writer (lines 71-76 of main.py)

Python csv.writer with the default dialect: delimiter comma, quote char
a double quote, minimal quoting (a field is quoted when it contains the
delimiter, the quote char, or a line-end char), quotes doubled inside a
quoted field, records terminated by CR LF. -/

/-- True when csv.writer must quote the field (QUOTE_MINIMAL): the field
contains the delimiter, the quote char, or a line-terminator char. -/
def needsQuote (s : String) : Bool :=
  s.data.any fun c => c = ',' || c = '"' || c = '\r' || c = '\n'

/-- Doubling of quote characters inside a quoted CSV field. -/
def escChars : List Char → List Char
  | [] => []
  | c :: cs => if c = '"' then '"' :: '"' :: escChars cs else c :: escChars cs

/-- One CSV field as csv.writer renders it: quoted with doubled quotes when
needed, verbatim otherwise. -/
def csvField (s : String) : String :=
  if needsQuote s then "\"" ++ String.mk (escChars s.data) ++ "\"" else s

/-- The comma-join of the rendered fields of one record. -/
def joinFields : List String → String
  | [] => ""
  | [f] => csvField f
  | f :: fs => csvField f ++ "," ++ joinFields fs

/-- One CSV record: comma-separated fields plus CR LF. -/
def csvRecord (fields : List String) : String :=
  joinFields fields ++ "\r\n"

/-- The five cells of a row as csv.writer stringifies them (the duration
integer via str). -/
def rowFields (r : OutputRow) : List String :=
  [r.1, r.2.1, r.2.2.1, r.2.2.2.1, toString r.2.2.2.2]

/-- The header row written on line 75 of main.py. -/
def headerFields : List String := ["Date", "Start", "End", "Summary", "Duration(min)"]

/-- The writerows loop of line 76: one record per row, concatenated. -/
def joinRecords : List OutputRow → String
  | [] => ""
  | r :: rs => csvRecord (rowFields r) ++ joinRecords rs

/-- Lines 71-76 of main.py (write_csv): the full text written to the output
file, header record then one record per row. -/
def write_csv (rows : List OutputRow) : String :=
  csvRecord headerFields ++ joinRecords rows

/-! ### A CSV reader, for the round-trip claim

A standard CSV parse of the written text: a state machine over the
characters, tracking whether it is inside a quoted field, accumulating the
current field (reversed), the fields of the current record (reversed), and
the finished records (reversed). -/

/-- CSV parsing state machine.  Arguments: remaining input, inside-quotes
flag, current field (reversed), current record fields (reversed), finished
records (reversed). -/
def csvAux : List Char → Bool → List Char → List String → List (List String) →
    List (List String)
  | [], _, field, fields, recs =>
    if field.isEmpty ∧ fields.isEmpty then recs.reverse
    else ((String.mk field.reverse :: fields).reverse :: recs).reverse
  | c :: rest, inQ, field, fields, recs =>
    if inQ then
      if c = '"' then
        match rest with
        | [] => csvAux [] false field fields recs
        | c2 :: rest2 =>
          if c2 = '"' then csvAux rest2 true ('"' :: field) fields recs
          else csvAux (c2 :: rest2) false field fields recs
      else csvAux rest true (c :: field) fields recs
    else
      if c = ',' then
        csvAux rest false [] (String.mk field.reverse :: fields) recs
      else if c = '\r' then
        match rest with
        | [] => csvAux [] false ('\r' :: field) fields recs
        | c2 :: rest2 =>
          if c2 = '\n' then
            csvAux rest2 false [] [] ((String.mk field.reverse :: fields).reverse :: recs)
          else csvAux (c2 :: rest2) false ('\r' :: field) fields recs
      else if c = '"' ∧ field.isEmpty then
        csvAux rest true field fields recs
      else
        csvAux rest false (c :: field) fields recs
termination_by l _ _ _ _ => l.length
decreasing_by all_goals simp_wf <;> omega

/-- Parse a CSV text into its records of fields. -/
def csvParse (s : String) : List (List String) :=
  csvAux s.data false [] [] []

/-! ### The orchestrator (lines 79-102 of main.py)

The file system is modelled as a map from paths to file contents.  Opening
a file in write mode truncates it, so the content after write_csv is
exactly the rendered text, whatever was there before. -/

/-- A file system: each path optionally holds a text content. -/
def FileSystem := String → Option String

/-- The effect of write_csv on the file system: the output path now holds
exactly the rendered CSV text (mode w truncates or creates). -/
def writeCsvFS (rows : List OutputRow) (path : String) (fs : FileSystem) :
    FileSystem :=
  fun p => if p = path then some (write_csv rows) else fs p

/-- Observable outcome of main (lines 95-102): resulting file system,
whether the no-events warning was printed, the reported row count if the
conversion message was printed, and whether the process exits successfully. -/
structure MainResult where
  fs : FileSystem
  warned : Bool
  reported : Option Nat
  exitOk : Bool

/-- Lines 95-102 of main.py, after loading: extract rows; on an extraction
exception the process dies with a traceback (nonzero exit, nothing
written); on zero rows print the warning and write nothing; otherwise
write the CSV and report the row count. -/
def main_model (cal : List Event) (outPath : String) (fs : FileSystem) :
    MainResult :=
  match parse_events cal with
  | .error _ => ⟨fs, false, none, false⟩
  | .ok rows =>
    if rows.isEmpty then ⟨fs, true, none, true⟩
    else ⟨writeCsvFS rows outPath fs, false, some rows.length, true⟩

/-- Whether an event does not mix a timezone-aware endpoint with a naive
one (after date normalization); Python datetime subtraction only succeeds
in that case. -/
def tzCompatible (e : Event) : Bool :=
  match e.dtstart, e.dtend with
  | some s, some en => (normalizeDt s).tz.isSome == (normalizeDt en).tz.isSome
  | _, _ => true

/-- Whether an event cannot make the duration subtraction raise: either it
never reaches the subtraction (an endpoint is absent, or both normalized
times of day are midnight so the all-day filter skips it first), or its
endpoints do not mix timezone-aware and naive. -/
def subtractionSafe (e : Event) : Bool :=
  match e.dtstart, e.dtend with
  | some s, some en =>
    decide ((normalizeDt s).time = midnightTime
      ∧ (normalizeDt en).time = midnightTime) || tzCompatible e
  | _, _ => true

/-- The row an event contributes, if any (erasing the error case). -/
def rowOf (e : Event) : Option OutputRow :=
  match event_to_row e with
  | .ok (some r) => some r
  | _ => none

/-! ## Theorems -/

/-- When both endpoints are present and a row comes out, the row is exactly
the tuple built from the normalized endpoints: ISO start date, HH:MM times,
summary with empty default, and floor minute duration of the subtraction. -/
theorem event_to_row_some_eq (e : Event) (s en : DtValue) (d : Int)
    (row : OutputRow)
    (hs : e.dtstart = some s) (he : e.dtend = some en)
    (hd : dtSub (normalizeDt en) (normalizeDt s) = some d)
    (hr : event_to_row e = .ok (some row)) :
    row = (isoDate (normalizeDt s).date, fmtHM (normalizeDt s).time,
      fmtHM (normalizeDt en).time, e.summary.getD "", Int.fdiv d 60) := by
  simp only [event_to_row, hs, he] at hr
  split at hr
  · simp at hr
  · rw [hd] at hr
    simp only [Except.ok.injEq, Option.some.injEq] at hr
    exact hr.symm

/-- C1: every produced row's duration_minutes is the floor of the seconds
difference of the normalized endpoints divided by 60 (Python floor
division), so 59.5 minutes gives 59 and the value can be negative. -/
theorem C1_duration_is_floor_minutes (e : Event) (s en : DtValue) (d : Int)
    (row : OutputRow)
    (hs : e.dtstart = some s) (he : e.dtend = some en)
    (hd : dtSub (normalizeDt en) (normalizeDt s) = some d)
    (hr : event_to_row e = .ok (some row)) :
    row.2.2.2.2 = Int.fdiv d 60 := by
  rw [event_to_row_some_eq e s en d row hs he hd hr]

/-- C1 witness: a 59.5-minute event (3570 seconds) yields 59, and an event
whose end precedes its start by an hour yields -60. -/
theorem C1_duration_witness :
    (("2024-01-01", "09:00", "09:59", "", (59 : Int)) : OutputRow).2.2.2.2
        = Int.fdiv 3570 60
  ∧ (("2024-01-01", "10:00", "09:00", "", (-60 : Int)) : OutputRow).2.2.2.2
        = Int.fdiv (-3600) 60
  ∧ Int.fdiv 3570 60 = 59 ∧ Int.fdiv (-3600) 60 = -60 := by
  refine ⟨?_, ?_, by decide, by decide⟩
  · exact C1_duration_is_floor_minutes
      ⟨some (.dt ⟨⟨2024, 1, 1⟩, ⟨9, 0, 0⟩, none⟩),
        some (.dt ⟨⟨2024, 1, 1⟩, ⟨9, 59, 30⟩, none⟩), none⟩
      _ _ 3570 _ rfl rfl (by decide) rfl
  · exact C1_duration_is_floor_minutes
      ⟨some (.dt ⟨⟨2024, 1, 1⟩, ⟨10, 0, 0⟩, none⟩),
        some (.dt ⟨⟨2024, 1, 1⟩, ⟨9, 0, 0⟩, none⟩), none⟩
      _ _ (-3600) _ rfl rfl (by decide) rfl

/-- C2: an event whose normalized start and end both carry a midnight
time-of-day produces no row, even if both endpoints are genuine datetime
values at exactly midnight. -/
theorem C2_midnight_to_midnight_skipped (e : Event) (s en : DtValue)
    (hs : e.dtstart = some s) (he : e.dtend = some en)
    (h1 : (normalizeDt s).time = midnightTime)
    (h2 : (normalizeDt en).time = midnightTime) :
    event_to_row e = .ok none := by
  simp [event_to_row, hs, he, h1, h2]

/-- C2 witness: a timed event running from midnight to midnight the next
day is skipped. -/
theorem C2_midnight_witness :
    event_to_row ⟨some (.dt ⟨⟨2024, 1, 1⟩, ⟨0, 0, 0⟩, none⟩),
      some (.dt ⟨⟨2024, 1, 2⟩, ⟨0, 0, 0⟩, none⟩), some "night"⟩ = .ok none :=
  C2_midnight_to_midnight_skipped _ _ _ rfl rfl rfl rfl

/-- C3: an event missing its start or its end attribute produces no row and
raises no error. -/
theorem C3_missing_endpoint_skipped (e : Event)
    (h : e.dtstart = none ∨ e.dtend = none) :
    event_to_row e = .ok none := by
  rcases h with h | h
  · simp [event_to_row, h]
  · cases hs : e.dtstart <;> simp [event_to_row, h, hs]

/-- C3 witness: an event with an end but no start is skipped. -/
theorem C3_missing_witness :
    event_to_row ⟨none, some (.d ⟨2024, 1, 1⟩), some "no start"⟩ = .ok none :=
  C3_missing_endpoint_skipped _ (Or.inl rfl)

/-- C4: every row that survives the absence and all-day filters consists of
the start's ISO date, the zero-padded HH:MM renderings of the normalized
start and end times of day, the summary text with empty default, and the
floor minute duration; a date-only endpoint is normalized to midnight
before this. -/
theorem C4_row_shape (e : Event) (s en : DtValue) (d : Int) (row : OutputRow)
    (hs : e.dtstart = some s) (he : e.dtend = some en)
    (hd : dtSub (normalizeDt en) (normalizeDt s) = some d)
    (hr : event_to_row e = .ok (some row)) :
    row = (isoDate (normalizeDt s).date, fmtHM (normalizeDt s).time,
      fmtHM (normalizeDt en).time, e.summary.getD "", Int.fdiv d 60) :=
  event_to_row_some_eq e s en d row hs he hd hr

/-- C4 witness: the Work example of the spec comes out as the row
(2024-01-01, 09:00, 17:30, Work, 510), and a date-only start is rendered
as midnight 00:00. -/
theorem C4_row_witness :
    event_to_row ⟨some (.dt ⟨⟨2024, 1, 1⟩, ⟨9, 0, 0⟩, none⟩),
        some (.dt ⟨⟨2024, 1, 1⟩, ⟨17, 30, 0⟩, none⟩), some "Work"⟩
      = .ok (some ("2024-01-01", "09:00", "17:30", "Work", 510))
  ∧ (("2024-01-01", "09:00", "17:30", "Work", (510 : Int)) : OutputRow)
      = (isoDate ⟨2024, 1, 1⟩, fmtHM ⟨9, 0, 0⟩, fmtHM ⟨17, 30, 0⟩, "Work",
          Int.fdiv 30600 60)
  ∧ event_to_row ⟨some (.d ⟨2024, 1, 1⟩),
        some (.dt ⟨⟨2024, 1, 1⟩, ⟨17, 30, 0⟩, none⟩), none⟩
      = .ok (some ("2024-01-01", "00:00", "17:30", "", 1050)) := by
  refine ⟨rfl, ?_, rfl⟩
  exact C4_row_shape
    ⟨some (.dt ⟨⟨2024, 1, 1⟩, ⟨9, 0, 0⟩, none⟩),
      some (.dt ⟨⟨2024, 1, 1⟩, ⟨17, 30, 0⟩, none⟩), some "Work"⟩
    _ _ 30600 _ rfl rfl (by decide) rfl

/-- C7 is false as stated: the code emits a row with a negative
duration_minutes when the end precedes the start. -/
theorem C7_counterexample :
    event_to_row ⟨some (.dt ⟨⟨2024, 1, 1⟩, ⟨10, 0, 0⟩, none⟩),
        some (.dt ⟨⟨2024, 1, 1⟩, ⟨9, 0, 0⟩, none⟩), none⟩
      = .ok (some ("2024-01-01", "10:00", "09:00", "", -60))
  ∧ (-60 : Int) < 0 :=
  ⟨rfl, by decide⟩

/-- C7 amended: duration_minutes is an integer that is non-negative
whenever the normalized end does not precede the normalized start; it is
negative otherwise (not validated by the code). -/
theorem C7_amended_duration_nonneg (e : Event) (s en : DtValue) (d : Int)
    (row : OutputRow)
    (hs : e.dtstart = some s) (he : e.dtend = some en)
    (hd : dtSub (normalizeDt en) (normalizeDt s) = some d)
    (hr : event_to_row e = .ok (some row)) (hle : 0 ≤ d) :
    0 ≤ row.2.2.2.2 := by
  rw [event_to_row_some_eq e s en d row hs he hd hr]
  exact Int.fdiv_nonneg hle (by decide)

/-- C7 witness: the Work example has a non-negative duration. -/
theorem C7_amended_witness :
    (0 : Int) ≤ (("2024-01-01", "09:00", "17:30", "Work", (510 : Int)) :
      OutputRow).2.2.2.2 :=
  C7_amended_duration_nonneg
    ⟨some (.dt ⟨⟨2024, 1, 1⟩, ⟨9, 0, 0⟩, none⟩),
      some (.dt ⟨⟨2024, 1, 1⟩, ⟨17, 30, 0⟩, none⟩), some "Work"⟩
    _ _ 30600 _ rfl rfl (by decide) rfl (by decide)

/-- A subtraction-safe event never makes event_to_row fail: either it is
skipped before the subtraction, or its endpoints subtract cleanly. -/
theorem event_to_row_total (e : Event) (h : subtractionSafe e = true) :
    ∃ r, event_to_row e = .ok r := by
  cases hs : e.dtstart with
  | none => exact ⟨none, by simp [event_to_row, hs]⟩
  | some s =>
    cases he : e.dtend with
    | none => exact ⟨none, by simp [event_to_row, hs, he]⟩
    | some en =>
      simp only [event_to_row, hs, he]
      split
      · exact ⟨none, rfl⟩
      · next hcond =>
        have htz : tzCompatible e = true := by
          simp only [subtractionSafe, hs, he, Bool.or_eq_true,
            decide_eq_true_eq] at h
          rcases h with h | h
          · exact absurd h hcond
          · exact h
        simp only [tzCompatible, hs, he] at htz
        have hd : ∃ dsec, dtSub (normalizeDt en) (normalizeDt s) = some dsec := by
          cases h1 : (normalizeDt en).tz <;> cases h2 : (normalizeDt s).tz <;>
            simp [dtSub, h1, h2] <;> simp [h1, h2] at htz
        obtain ⟨dsec, hd⟩ := hd
        rw [hd]
        exact ⟨_, rfl⟩

/-- The extraction loop never fails on a calendar of subtraction-safe
events. -/
theorem parse_events_aux_total (cal : List Event) :
    ∀ acc, (∀ e ∈ cal, subtractionSafe e = true) →
      ∃ rows, parse_events_aux cal acc = .ok rows := by
  induction cal with
  | nil => exact fun acc _ => ⟨acc, rfl⟩
  | cons e es ih =>
    intro acc h
    obtain ⟨r, hr⟩ := event_to_row_total e (h e (List.mem_cons_self e es))
    have hes : ∀ x ∈ es, subtractionSafe x = true :=
      fun x hx => h x (List.mem_cons_of_mem e hx)
    cases r with
    | none =>
      obtain ⟨rows, hrows⟩ := ih acc hes
      exact ⟨rows, by simp only [parse_events_aux, hr, hrows]⟩
    | some r0 =>
      obtain ⟨rows, hrows⟩ := ih (acc ++ [r0]) hes
      exact ⟨rows, by simp only [parse_events_aux, hr, hrows]⟩

/-- C6 is false as stated: an event whose start is a naive datetime and
whose end is timezone-aware reaches the datetime subtraction, where Python
raises a TypeError, and the whole extraction fails with it. -/
theorem C6_counterexample :
    event_to_row ⟨some (.dt ⟨⟨2024, 1, 1⟩, ⟨9, 0, 0⟩, none⟩),
        some (.dt ⟨⟨2024, 1, 1⟩, ⟨10, 0, 0⟩, some 3600⟩), none⟩
      = .error ()
  ∧ parse_events [⟨some (.dt ⟨⟨2024, 1, 1⟩, ⟨9, 0, 0⟩, none⟩),
        some (.dt ⟨⟨2024, 1, 1⟩, ⟨10, 0, 0⟩, some 3600⟩), none⟩]
      = .error () :=
  ⟨rfl, rfl⟩

/-- C6 amended: extraction never raises on a calendar in which no entry
that reaches the duration subtraction pairs a timezone-aware endpoint
with a naive one - entries that are skipped first (absent endpoint, or
all-day filtered) may mix freely: every such event yields ok (a skip or a
row), and parse_events yields ok on the whole calendar. -/
theorem C6_amended_total_when_subtraction_safe (cal : List Event)
    (h : ∀ e ∈ cal, subtractionSafe e = true) :
    (∀ e ∈ cal, ∃ r, event_to_row e = .ok r)
  ∧ ∃ rows, parse_events cal = .ok rows :=
  ⟨fun e he => event_to_row_total e (h e he),
    parse_events_aux_total cal [] h⟩

/-- C6 witness: a calendar of one naive Work event, one all-day event, and
one midnight-to-midnight event that mixes a naive start with an aware end
(it is skipped by the all-day filter before the subtraction, so it raises
nothing) extracts without error. -/
theorem C6_amended_witness :
    (∀ e ∈ ([⟨some (.dt ⟨⟨2024, 1, 1⟩, ⟨9, 0, 0⟩, none⟩),
          some (.dt ⟨⟨2024, 1, 1⟩, ⟨17, 30, 0⟩, none⟩), some "Work"⟩,
        ⟨some (.d ⟨2024, 2, 1⟩), some (.d ⟨2024, 2, 2⟩), none⟩,
        ⟨some (.dt ⟨⟨2024, 3, 1⟩, ⟨0, 0, 0⟩, none⟩),
          some (.dt ⟨⟨2024, 3, 2⟩, ⟨0, 0, 0⟩, some 3600⟩), none⟩] :
          List Event),
      ∃ r, event_to_row e = .ok r)
  ∧ ∃ rows, parse_events
      [⟨some (.dt ⟨⟨2024, 1, 1⟩, ⟨9, 0, 0⟩, none⟩),
          some (.dt ⟨⟨2024, 1, 1⟩, ⟨17, 30, 0⟩, none⟩), some "Work"⟩,
        ⟨some (.d ⟨2024, 2, 1⟩), some (.d ⟨2024, 2, 2⟩), none⟩,
        ⟨some (.dt ⟨⟨2024, 3, 1⟩, ⟨0, 0, 0⟩, none⟩),
          some (.dt ⟨⟨2024, 3, 2⟩, ⟨0, 0, 0⟩, some 3600⟩), none⟩] = .ok rows :=
  C6_amended_total_when_subtraction_safe _ (by decide)

/-- The extraction loop appends exactly the contributed rows, in document
order, after the accumulator. -/
theorem parse_events_aux_eq (cal : List Event) :
    ∀ acc rows, parse_events_aux cal acc = .ok rows →
      rows = acc ++ cal.filterMap rowOf := by
  induction cal with
  | nil =>
    intro acc rows h
    simp only [parse_events_aux, Except.ok.injEq] at h
    simp [h.symm]
  | cons e es ih =>
    intro acc rows h
    simp only [parse_events_aux] at h
    cases hr : event_to_row e with
    | error u => rw [hr] at h; cases h
    | ok r =>
      rw [hr] at h
      cases r with
      | none =>
        rw [List.filterMap_cons, show rowOf e = none by simp [rowOf, hr]]
        exact ih acc rows h
      | some r0 =>
        rw [List.filterMap_cons, show rowOf e = some r0 by simp [rowOf, hr]]
        rw [ih (acc ++ [r0]) rows h, List.append_assoc]
        rfl

/-- C9: when extraction succeeds, the produced rows are the contributions
of the event entries in the order they occur in the document, with the
skipped entries filtered out and nothing reordered. -/
theorem C9_document_order (cal : List Event) (rows : List OutputRow)
    (h : parse_events cal = .ok rows) :
    rows = cal.filterMap rowOf := by
  simpa using parse_events_aux_eq cal [] rows h

/-- C9 witness: a calendar whose later-dated event comes first keeps that
document order in the rows. -/
theorem C9_order_witness :
    ([("2024-01-02", "17:00", "18:00", "B", 60),
      ("2024-01-01", "09:00", "09:30", "A", 30)] : List OutputRow)
      = List.filterMap rowOf
          [⟨some (.dt ⟨⟨2024, 1, 2⟩, ⟨17, 0, 0⟩, none⟩),
              some (.dt ⟨⟨2024, 1, 2⟩, ⟨18, 0, 0⟩, none⟩), some "B"⟩,
            ⟨some (.dt ⟨⟨2024, 1, 1⟩, ⟨9, 0, 0⟩, none⟩),
              some (.dt ⟨⟨2024, 1, 1⟩, ⟨9, 30, 0⟩, none⟩), some "A"⟩] :=
  C9_document_order _ _ rfl

/-- C5: when extraction succeeds, the process exits successfully; with zero
rows it warns, leaves the whole file system untouched (no output file
written or created) and reports no count; with rows it writes the CSV text
to the output path, does not warn, and reports the row count. -/
theorem C5_orchestrator (cal : List Event) (path : String) (fs : FileSystem)
    (rows : List OutputRow) (h : parse_events cal = .ok rows) :
    (main_model cal path fs).exitOk = true
  ∧ (rows = [] →
      (main_model cal path fs).warned = true
    ∧ (main_model cal path fs).fs = fs
    ∧ (main_model cal path fs).reported = none)
  ∧ (rows ≠ [] →
      (main_model cal path fs).warned = false
    ∧ (main_model cal path fs).fs path = some (write_csv rows)
    ∧ (main_model cal path fs).reported = some rows.length) := by
  refine ⟨?_, ?_, ?_⟩
  · simp only [main_model, h]
    split <;> rfl
  · intro hrows
    subst hrows
    simp [main_model, h]
  · intro hrows
    simp [main_model, h, List.isEmpty_iff, hrows, writeCsvFS]

/-- C5 witness: an empty calendar warns without creating the output file
and still exits successfully; a one-event calendar writes the file and
reports one row. -/
theorem C5_orchestrator_witness :
    (main_model [] "working_hours.csv" (fun _ => none)).exitOk = true
  ∧ (main_model [] "working_hours.csv" (fun _ => none)).warned = true
  ∧ (main_model [] "working_hours.csv" (fun _ => none)).fs = (fun _ => none)
  ∧ (main_model [⟨some (.dt ⟨⟨2024, 1, 1⟩, ⟨9, 0, 0⟩, none⟩),
        some (.dt ⟨⟨2024, 1, 1⟩, ⟨17, 30, 0⟩, none⟩), some "Work"⟩]
        "working_hours.csv" (fun _ => none)).reported = some 1 := by
  have h1 := C5_orchestrator [] "working_hours.csv" (fun _ => none) [] rfl
  have h2 := C5_orchestrator
    [⟨some (.dt ⟨⟨2024, 1, 1⟩, ⟨9, 0, 0⟩, none⟩),
        some (.dt ⟨⟨2024, 1, 1⟩, ⟨17, 30, 0⟩, none⟩), some "Work"⟩]
    "working_hours.csv" (fun _ => none)
    [("2024-01-01", "09:00", "17:30", "Work", 510)] rfl
  exact ⟨h1.1, (h1.2.1 rfl).1, (h1.2.1 rfl).2.1,
    (h2.2.2 (by simp)).2.2⟩

/-- C10: writing in mode w truncates: after write_csv the output path holds
exactly the rendered CSV text, whatever the file system held there before
(existing content of any kind, or no file at all). -/
theorem C10_overwrite (rows : List OutputRow) (path : String)
    (fs1 fs2 : FileSystem) :
    writeCsvFS rows path fs1 path = some (write_csv rows)
  ∧ writeCsvFS rows path fs1 path = writeCsvFS rows path fs2 path := by
  simp [writeCsvFS]

/-! ### Round trip of the CSV writer through the CSV reader -/

/-- Appending strings appends their character lists. -/
theorem data_append (a b : String) : (a ++ b).data = a.data ++ b.data := rfl

/-- Rebuilding a string from its character list gives it back. -/
theorem mk_data (s : String) : String.mk s.data = s := rfl

/-- The characters of the record terminator. -/
theorem crlf_data : ("\r\n" : String).data = ['\r', '\n'] := rfl

/-- Outside quotes, an ordinary character is appended to the current
field. -/
theorem csvAux_step_char (c : Char) (rest field : List Char)
    (fields : List String) (recs : List (List String))
    (h1 : c ≠ ',') (h2 : c ≠ '"') (h3 : c ≠ '\r') :
    csvAux (c :: rest) false field fields recs
      = csvAux rest false (c :: field) fields recs := by
  cases rest <;> simp [csvAux, h1, h2, h3]

/-- Outside quotes, a comma closes the current field. -/
theorem csvAux_step_comma (rest field : List Char) (fields : List String)
    (recs : List (List String)) :
    csvAux (',' :: rest) false field fields recs
      = csvAux rest false [] (String.mk field.reverse :: fields) recs := by
  cases rest <;> simp [csvAux]

/-- Outside quotes, CR LF closes the current field and record. -/
theorem csvAux_step_crlf (rest field : List Char) (fields : List String)
    (recs : List (List String)) :
    csvAux ('\r' :: '\n' :: rest) false field fields recs
      = csvAux rest false [] []
          ((String.mk field.reverse :: fields).reverse :: recs) := by
  simp [csvAux]

/-- A quote at the start of a field opens a quoted field. -/
theorem csvAux_step_qopen (rest : List Char) (fields : List String)
    (recs : List (List String)) :
    csvAux ('"' :: rest) false [] fields recs
      = csvAux rest true [] fields recs := by
  cases rest <;> simp [csvAux]

/-- Inside quotes, a doubled quote stands for one quote character. -/
theorem csvAux_step_qq (rest field : List Char) (fields : List String)
    (recs : List (List String)) :
    csvAux ('"' :: '"' :: rest) true field fields recs
      = csvAux rest true ('"' :: field) fields recs := by
  simp [csvAux]

/-- Inside quotes, a lone quote closes the quoted part. -/
theorem csvAux_step_qclose (c2 : Char) (rest field : List Char)
    (fields : List String) (recs : List (List String)) (h : c2 ≠ '"') :
    csvAux ('"' :: c2 :: rest) true field fields recs
      = csvAux (c2 :: rest) false field fields recs := by
  simp [csvAux, h]

/-- Inside quotes, any other character is appended. -/
theorem csvAux_step_qchar (c : Char) (rest field : List Char)
    (fields : List String) (recs : List (List String)) (h : c ≠ '"') :
    csvAux (c :: rest) true field fields recs
      = csvAux rest true (c :: field) fields recs := by
  cases rest <;> simp [csvAux, h]

/-- Consuming an escaped quoted body recovers its characters: the parser
run from inside quotes on the doubled-quote escape of l, a closing quote
and a delimiter resumes outside quotes with l prepended (reversed) to the
field accumulator. -/
theorem csvAux_quoted (l : List Char) :
    ∀ (d : Char) (rest field : List Char) (fields : List String)
      (recs : List (List String)), d ≠ '"' →
    csvAux (escChars l ++ '"' :: d :: rest) true field fields recs
      = csvAux (d :: rest) false (l.reverse ++ field) fields recs := by
  induction l with
  | nil =>
    intro d rest field fields recs hd
    rw [show escChars [] ++ '"' :: d :: rest = '"' :: d :: rest from rfl]
    rw [csvAux_step_qclose d rest field fields recs hd]
    simp
  | cons c cs ih =>
    intro d rest field fields recs hd
    by_cases hc : c = '"'
    · subst hc
      rw [show escChars ('"' :: cs) ++ '"' :: d :: rest
          = '"' :: '"' :: (escChars cs ++ '"' :: d :: rest) by simp [escChars]]
      rw [csvAux_step_qq, ih d rest ('"' :: field) fields recs hd]
      simp
    · rw [show escChars (c :: cs) ++ '"' :: d :: rest
          = c :: (escChars cs ++ '"' :: d :: rest) by simp [escChars, hc]]
      rw [csvAux_step_qchar c _ field fields recs hc,
        ih d rest (c :: field) fields recs hd]
      simp

/-- Consuming an unquoted body recovers its characters, provided it holds
no delimiter, quote, or CR. -/
theorem csvAux_unquoted (l : List Char) :
    ∀ (rest field : List Char) (fields : List String)
      (recs : List (List String)),
    (∀ c ∈ l, c ≠ ',' ∧ c ≠ '"' ∧ c ≠ '\r') →
    csvAux (l ++ rest) false field fields recs
      = csvAux rest false (l.reverse ++ field) fields recs := by
  induction l with
  | nil => intro rest field fields recs _; simp
  | cons c cs ih =>
    intro rest field fields recs h
    obtain ⟨h1, h2, h3⟩ := h c (List.mem_cons_self c cs)
    rw [List.cons_append, csvAux_step_char c _ field fields recs h1 h2 h3,
      ih rest (c :: field) fields recs
        (fun x hx => h x (List.mem_cons_of_mem c hx))]
    simp

/-- Parsing one rendered field before a delimiter recovers its text. -/
theorem csvAux_one_field (f : String) (d : Char) (rest : List Char)
    (fields : List String) (recs : List (List String))
    (hd : d = ',' ∨ d = '\r') :
    csvAux ((csvField f).data ++ d :: rest) false [] fields recs
      = csvAux (d :: rest) false f.data.reverse fields recs := by
  have hdq : d ≠ '"' := by rcases hd with h | h <;> subst h <;> decide
  by_cases hq : needsQuote f
  · rw [show csvField f = "\"" ++ String.mk (escChars f.data) ++ "\""
        by simp [csvField, hq]]
    rw [show ("\"" ++ String.mk (escChars f.data) ++ "\"").data ++ d :: rest
        = '"' :: (escChars f.data ++ '"' :: d :: rest) by
      simp [data_append]]
    rw [csvAux_step_qopen, csvAux_quoted f.data d rest [] fields recs hdq]
    simp
  · have hnq : ∀ c ∈ f.data, c ≠ ',' ∧ c ≠ '"' ∧ c ≠ '\r' := by
      simp only [needsQuote, List.any_eq_true, Bool.or_eq_true,
        decide_eq_true_eq] at hq
      push_neg at hq
      intro c hc
      have h := hq c hc
      tauto
    rw [show csvField f = f by simp [csvField, hq]]
    rw [csvAux_unquoted f.data (d :: rest) [] fields recs hnq]
    simp

/-- Parsing the comma-joined fields of one record up to its CR LF recovers
the fields and closes the record. -/
theorem csvAux_record_fields (fs : List String) :
    ∀ (fields0 : List String) (rest : List Char) (recs : List (List String)),
    fs ≠ [] →
    csvAux ((joinFields fs).data ++ '\r' :: '\n' :: rest) false [] fields0 recs
      = csvAux rest false [] [] ((fields0.reverse ++ fs) :: recs) := by
  induction fs with
  | nil => intro _ _ _ h; exact absurd rfl h
  | cons f tl ih =>
    intro fields0 rest recs _
    cases tl with
    | nil =>
      rw [show joinFields [f] = csvField f from rfl]
      rw [csvAux_one_field f '\r' ('\n' :: rest) fields0 recs (Or.inr rfl)]
      rw [csvAux_step_crlf]
      simp [mk_data]
    | cons g gl =>
      rw [show (joinFields (f :: g :: gl)).data ++ '\r' :: '\n' :: rest
          = (csvField f).data
            ++ ',' :: ((joinFields (g :: gl)).data ++ '\r' :: '\n' :: rest) by
        rw [show joinFields (f :: g :: gl)
            = csvField f ++ "," ++ joinFields (g :: gl) from rfl]
        simp [data_append]]
      rw [csvAux_one_field f ','
        ((joinFields (g :: gl)).data ++ '\r' :: '\n' :: rest) fields0 recs
        (Or.inl rfl)]
      rw [csvAux_step_comma]
      rw [ih (String.mk f.data.reverse.reverse :: fields0) rest recs
        (by simp)]
      simp [mk_data]

/-- Parsing a concatenation of written row records appends their field
lists to the finished records. -/
theorem csvAux_records (rows : List OutputRow) :
    ∀ recs0 : List (List String),
    csvAux (joinRecords rows).data false [] [] recs0
      = recs0.reverse ++ rows.map rowFields := by
  induction rows with
  | nil =>
    intro recs0
    rw [show (joinRecords []).data = [] from rfl]
    simp [csvAux]
  | cons r rs ih =>
    intro recs0
    rw [show (joinRecords (r :: rs)).data
        = (joinFields (rowFields r)).data ++ '\r' :: '\n' :: (joinRecords rs).data by
      rw [show joinRecords (r :: rs)
          = (joinFields (rowFields r) ++ "\r\n") ++ joinRecords rs from rfl]
      simp [data_append, crlf_data]]
    rw [csvAux_record_fields (rowFields r) [] ((joinRecords rs).data) recs0
      (by simp [rowFields])]
    rw [ih ((([] : List String).reverse ++ rowFields r) :: recs0)]
    simp

/-- C8: the written file starts with the literal header line, followed by
one CR LF record per row with minimally quoted comma-separated fields, and
re-parsing the whole written text recovers the header and every field of
every row exactly - in particular any summary containing commas, quotes or
newlines. -/
theorem C8_write_parse_roundtrip (rows : List OutputRow) :
    write_csv rows
      = "Date,Start,End,Summary,Duration(min)\r\n" ++ joinRecords rows
  ∧ csvParse (write_csv rows) = headerFields :: rows.map rowFields := by
  constructor
  · rfl
  · rw [show csvParse (write_csv rows)
        = csvAux (write_csv rows).data false [] [] [] from rfl]
    rw [show (write_csv rows).data
        = (joinFields headerFields).data ++ '\r' :: '\n' :: (joinRecords rows).data by
      rw [show write_csv rows
          = (joinFields headerFields ++ "\r\n") ++ joinRecords rows from rfl]
      simp [data_append, crlf_data]]
    rw [csvAux_record_fields headerFields [] ((joinRecords rows).data) []
      (by simp [headerFields])]
    rw [csvAux_records rows [([] : List String).reverse ++ headerFields]]
    simp

end ICS
